import Mathlib

/-!
Verification of the form-validation and submission-gating pipeline of
`script.js` (animated login page).

Modelling conventions:
* JavaScript strings are modelled as `List Char`; user-facing messages stay
  `String`.  A validator returns its error message, `""` meaning "valid",
  exactly as in the source.
* `String.prototype.trim` and the regex class `\s` are modelled with
  `Char.isWhitespace` (the inputs of interest are ASCII).
* The document state that `validators.confirmPassword` reads live
  (`document.getElementById("signUpPassword")?.value`) is an explicit
  `Option (List Char)` parameter (`none` = element absent, in which case the
  strict comparison with `undefined` fails, as in JS).
* Randomness (`crypto.getRandomValues` over a `Uint8Array(32)`) is passed in
  as a `List Nat` parameter whose entries are bytes (`< 256`).
* `Date.now()` timestamps are `Int` parameters.
-/

/-- JS `value.trim()`: strip leading and trailing whitespace. -/
def jsTrim (l : List Char) : List Char :=
  ((l.dropWhile Char.isWhitespace).reverse.dropWhile Char.isWhitespace).reverse

/-- The character class `[a-zA-Z0-9_]` of the username regex. -/
def isWordChar (c : Char) : Bool :=
  (decide ('a' ≤ c) && decide (c ≤ 'z')) ||
  (decide ('A' ≤ c) && decide (c ≤ 'Z')) ||
  (decide ('0' ≤ c) && decide (c ≤ '9')) ||
  (c == '_')

/-- The character class `[^\s@]` of the email regex. -/
def atomChar (c : Char) : Bool :=
  !c.isWhitespace && !(c == '@')

/-- Test of the anchored regex `^[a-zA-Z0-9_]+$` against the raw value. -/
def usernameRegexTest (v : List Char) : Bool :=
  !v.isEmpty && v.all isWordChar

/-- Matcher for the suffix `[^\s@]+\.[^\s@]+`: the list must be a dot
followed by a nonempty atom run, with the already-consumed prefix `y`
a nonempty atom run. -/
def tailCheck (y : List Char) : List Char → Bool
  | c :: z => c == '.' && !y.isEmpty && y.all atomChar && !z.isEmpty && z.all atomChar
  | [] => false

/-- Search every split of `rest` for a match of `[^\s@]+\.[^\s@]+`. -/
def tailTest (rest : List Char) : Bool :=
  (List.range (rest.length + 1)).any fun j => tailCheck (rest.take j) (rest.drop j)

/-- Matcher for `@[^\s@]+\.[^\s@]+` given the already-consumed prefix `x`,
which must be a nonempty run of `[^\s@]`. -/
def headCheck (x : List Char) : List Char → Bool
  | c :: rest => c == '@' && !x.isEmpty && x.all atomChar && tailTest rest
  | [] => false

/-- Test of the anchored email regex `^[^\s@]+@[^\s@]+\.[^\s@]+$`,
implemented by searching all split points. -/
def emailRegexTest (cs : List Char) : Bool :=
  (List.range (cs.length + 1)).any fun i => headCheck (cs.take i) (cs.drop i)

/-- The spec's description of the accepted email shape: non-whitespace-non-@
characters, then `@`, then such characters, then `.`, then such characters.
Stated declaratively for comparison with the executable regex test. -/
def EmailShapeSpec (cs : List Char) : Prop :=
  ∃ x y z : List Char,
    cs = x ++ '@' :: (y ++ '.' :: z) ∧
    x ≠ [] ∧ x.all atomChar ∧
    y ≠ [] ∧ y.all atomChar ∧
    z ≠ [] ∧ z.all atomChar

/-- `validators.name` from `script.js`. -/
def validators.name (v : List Char) : String :=
  if (jsTrim v).isEmpty then "Name is required"
  else if (jsTrim v).length < 2 then "Name must be at least 2 characters"
  else ""

/-- `validators.username` from `script.js`.  Note: the length checks use the
trimmed value but the regex is tested against the raw value. -/
def validators.username (v : List Char) : String :=
  if (jsTrim v).isEmpty then "Username is required"
  else if (jsTrim v).length < 3 then "Username must be at least 3 characters"
  else if !usernameRegexTest v then "Only letters, numbers, and underscores"
  else ""

/-- `validators.email` from `script.js`. -/
def validators.email (v : List Char) : String :=
  if (jsTrim v).isEmpty then "Email is required"
  else if !emailRegexTest v then "Please enter a valid email"
  else ""

/-- `validators.password` from `script.js` (no trimming here). -/
def validators.password (v : List Char) : String :=
  if v.isEmpty then "Password is required"
  else if v.length < 6 then "Password must be at least 6 characters"
  else ""

/-- `validators.confirmPassword` from `script.js`: compares against the live
value of the `signUpPassword` element (`none` when the element is absent,
in which case the strict comparison with `undefined` always fails). -/
def validators.confirmPassword (docPw : Option (List Char)) (v : List Char) : String :=
  if v.isEmpty then "Please confirm your password"
  else if docPw ≠ some v then "Passwords do not match"
  else ""

/-- The five validator keys of the `validators` object. -/
inductive VKey
  | name | username | email | password | confirmPassword
  deriving DecidableEq, Repr

/-- Dispatch `validators[validatorKey](value)`; `docPw` is the live value of
the `signUpPassword` element, read only by `confirmPassword`. -/
def runValidator (docPw : Option (List Char)) : VKey → List Char → String
  | .name, v => validators.name v
  | .username, v => validators.username v
  | .email, v => validators.email v
  | .password, v => validators.password v
  | .confirmPassword, v => validators.confirmPassword docPw v

/-- The UI state of one input group after `validateField`: the source either
sets the `error` class with a message, sets the `success` class, or clears
both (pass with empty value).  `validateField` fully determines the
resulting state, independent of the previous one. -/
inductive FieldMark
  | error (msg : String)
  | success
  | neutral
  deriving DecidableEq, Repr

/-- The decision part of `validateField(input, validatorKey)`: whether the
field validates, and the UI mark written to its input group. -/
def fieldResult (docPw : Option (List Char)) (k : VKey) (v : List Char) : Bool × FieldMark :=
  let err := runValidator docPw k v
  if err = "" then
    (true, if (jsTrim v).isEmpty then FieldMark.neutral else FieldMark.success)
  else
    (false, FieldMark.error err)

/-- Write one input group's UI mark (the DOM class/message update). -/
def setMark (ui : String → FieldMark) (id : String) (m : FieldMark) : String → FieldMark :=
  fun i => if i = id then m else ui i

/-- `validateField` including its UI side effect, keyed by element id. -/
def validateField (docPw : Option (List Char)) (ui : String → FieldMark)
    (id : String) (k : VKey) (v : List Char) : Bool × (String → FieldMark) :=
  let r := fieldResult docPw k v
  (r.1, setMark ui id r.2)

/-- One step of the `fields.forEach` loop in `validateForm`: look the field
up in the form (`form.querySelector`); a missing field leaves the
accumulator untouched, otherwise `validateField` runs and a failure clears
the flag. -/
def vfStep (docPw : Option (List Char)) (form : List (String × List Char))
    (acc : Bool × (String → FieldMark)) (f : String × VKey) : Bool × (String → FieldMark) :=
  match List.lookup f.1 form with
  | some v => (acc.1 && (fieldResult docPw f.2 v).1, setMark acc.2 f.1 (fieldResult docPw f.2 v).2)
  | none => acc

/-- `validateForm(form, fields)` from `script.js`: fold the forEach loop,
starting from `isValid = true` and the current UI state. -/
def validateForm (docPw : Option (List Char)) (form : List (String × List Char))
    (fields : List (String × VKey)) (ui : String → FieldMark) :
    Bool × (String → FieldMark) :=
  fields.foldl (vfStep docPw form) (true, ui)

/-- The closure state of `createRateLimiter`: `lastCall` and `isLimited`. -/
structure RL where
  lastCall : Int
  isLimited : Bool
  deriving DecidableEq, Repr

/-- The state at creation: `lastCall = 0`, `isLimited = false`. -/
def initRL : RL := { lastCall := 0, isLimited := false }

/-- `canProceed()` at time `now`: accept iff `now - lastCall >= intervalMs`,
recording `now`; a rejection sets `isLimited` and keeps `lastCall`. -/
def canProceed (intervalMs now : Int) (s : RL) : Bool × RL :=
  if intervalMs ≤ now - s.lastCall then
    (true, { lastCall := now, isLimited := false })
  else
    (false, { lastCall := s.lastCall, isLimited := true })

/-- `getRemainingTime()` at time `now`. -/
def getRemainingTime (intervalMs now : Int) (s : RL) : Int :=
  max 0 (intervalMs - (now - s.lastCall))

/-- Hex digit of `byte.toString(16)` (lowercase). -/
def hexDigit (n : Nat) : Char :=
  if n < 10 then Char.ofNat (48 + n) else Char.ofNat (87 + n)

/-- One byte rendered as `byte.toString(16).padStart(2, '0')` (two lowercase
hex digits for any value below 256). -/
def byteToHex (b : Nat) : List Char :=
  [hexDigit (b / 16), hexDigit (b % 16)]

/-- The joined hex encoding of the random byte array. -/
def hexOf (bytes : List Nat) : List Char :=
  (bytes.map byteToHex).flatten

/-- Membership test for lowercase hex characters. -/
def isHexChar (c : Char) : Bool :=
  (decide ('0' ≤ c) && decide (c ≤ '9')) || (decide ('a' ≤ c) && decide (c ≤ 'f'))

/-- The `csrfManager` state: its `token` field, `none` until first
generation (the source initialises it to `null`; generated tokens are
nonempty, so JS falsiness coincides with `none`). -/
structure CsrfState where
  token : Option (List Char)
  deriving DecidableEq, Repr

/-- `csrfManager.generateToken()` with the random bytes passed explicitly. -/
def generateToken (bytes : List Nat) (_s : CsrfState) : List Char × CsrfState :=
  (hexOf bytes, { token := some (hexOf bytes) })

/-- `csrfManager.getToken()`: lazily generate on first use. -/
def getToken (bytes : List Nat) (s : CsrfState) : List Char × CsrfState :=
  match s.token with
  | some t => (t, s)
  | none => generateToken bytes s

/-- `csrfManager.refreshToken()`: always regenerate. -/
def refreshToken (bytes : List Nat) (s : CsrfState) : List Char × CsrfState :=
  generateToken bytes s

/-- `csrfManager.addToFormData(formData)`: append `_csrf` with the current
token (generating it if absent). -/
def addToFormData (bytes : List Nat) (fd : List (String × List Char)) (s : CsrfState) :
    List (String × List Char) × CsrfState :=
  let g := getToken bytes s
  (fd ++ [("_csrf", g.1)], g.2)

/-- The observable steps of a submit handler, in source order.  Error toasts
(`showToast(..., "error")`) are a distinct step from the success toast. -/
inductive Step
  | rateCheck | validation | attachCsrf | busyEnter | waitDelay | busyExit
  | tokenRefresh | rememberMeUpdate | notifySuccess | notifyError | panelSwitch
  deriving DecidableEq, Repr

/-- The field list of the sign-in submit handler. -/
def signInFields : List (String × VKey) :=
  [("signInEmail", VKey.email), ("signInPassword", VKey.password)]

/-- The field list of the sign-up submit handler. -/
def signUpFields : List (String × VKey) :=
  [("signUpName", VKey.name), ("signUpUsername", VKey.username),
   ("signUpEmail", VKey.email), ("signUpPassword", VKey.password),
   ("signUpConfirmPassword", VKey.confirmPassword)]

/-- Result of one run of a submit handler: the trace of steps executed, the
final component states, and the outgoing form data (`none` when the
submission was stopped before it was built). -/
structure SubmitResult where
  trace : List Step
  rl : RL
  ui : String → FieldMark
  csrf : CsrfState
  formData : Option (List (String × List Char))

/-- The `signInForm` submit handler: rate-limit check (early return with an
error toast), validation (early return with an error toast), then CSRF
attachment, the simulated submission (busy enter, 1500 ms wait, busy exit),
token refresh, the remember-me update and the success toast. -/
def signInHandler (now : Int) (rl : RL) (docPw : Option (List Char))
    (form : List (String × List Char)) (ui : String → FieldMark)
    (csrf : CsrfState) (genBytes refreshBytes : List Nat) : SubmitResult :=
  if (canProceed 2000 now rl).1 then
    if (validateForm docPw form signInFields ui).1 then
      { trace := [Step.rateCheck, Step.validation, Step.attachCsrf, Step.busyEnter,
                  Step.waitDelay, Step.busyExit, Step.tokenRefresh,
                  Step.rememberMeUpdate, Step.notifySuccess],
        rl := (canProceed 2000 now rl).2,
        ui := (validateForm docPw form signInFields ui).2,
        csrf := (refreshToken refreshBytes (addToFormData genBytes form csrf).2).2,
        formData := some (addToFormData genBytes form csrf).1 }
    else
      { trace := [Step.rateCheck, Step.validation, Step.notifyError],
        rl := (canProceed 2000 now rl).2,
        ui := (validateForm docPw form signInFields ui).2,
        csrf := csrf, formData := none }
  else
    { trace := [Step.rateCheck, Step.notifyError],
      rl := (canProceed 2000 now rl).2, ui := ui, csrf := csrf, formData := none }

/-- The `signUpForm` submit handler: as for sign-in but over the sign-up
fields, without the remember-me step and with the panel switch scheduled
after the success toast. -/
def signUpHandler (now : Int) (rl : RL) (docPw : Option (List Char))
    (form : List (String × List Char)) (ui : String → FieldMark)
    (csrf : CsrfState) (genBytes refreshBytes : List Nat) : SubmitResult :=
  if (canProceed 2000 now rl).1 then
    if (validateForm docPw form signUpFields ui).1 then
      { trace := [Step.rateCheck, Step.validation, Step.attachCsrf, Step.busyEnter,
                  Step.waitDelay, Step.busyExit, Step.tokenRefresh,
                  Step.notifySuccess, Step.panelSwitch],
        rl := (canProceed 2000 now rl).2,
        ui := (validateForm docPw form signUpFields ui).2,
        csrf := (refreshToken refreshBytes (addToFormData genBytes form csrf).2).2,
        formData := some (addToFormData genBytes form csrf).1 }
    else
      { trace := [Step.rateCheck, Step.validation, Step.notifyError],
        rl := (canProceed 2000 now rl).2,
        ui := (validateForm docPw form signUpFields ui).2,
        csrf := csrf, formData := none }
  else
    { trace := [Step.rateCheck, Step.notifyError],
      rl := (canProceed 2000 now rl).2, ui := ui, csrf := csrf, formData := none }

/-- All input groups neutral: the page's initial UI state. -/
def uiInit : String → FieldMark := fun _ => FieldMark.neutral

/-- A list none of whose characters is whitespace is unchanged by trimming. -/
theorem jsTrim_eq_self (l : List Char) (h : ∀ c ∈ l, c.isWhitespace = false) :
    jsTrim l = l := by
  unfold jsTrim
  have h1 : l.dropWhile Char.isWhitespace = l := by
    cases l with
    | nil => rfl
    | cons a t => simp [List.dropWhile, h a (by simp)]
  rw [h1]
  have h2 : l.reverse.dropWhile Char.isWhitespace = l.reverse := by
    cases hr : l.reverse with
    | nil => rfl
    | cons a t =>
        have ha : a ∈ l := by
          rw [← List.mem_reverse, hr]; simp
        simp [List.dropWhile, h a ha]
  rw [h2, List.reverse_reverse]

/-- Word characters are not whitespace. -/
theorem isWordChar_not_ws (c : Char) (h : isWordChar c = true) :
    c.isWhitespace = false := by
  cases hw : c.isWhitespace with
  | false => rfl
  | true =>
      exfalso
      have hd : c = ' ' ∨ c = '\t' ∨ c = '\r' ∨ c = '\n' := by
        simp [Char.isWhitespace] at hw
        tauto
      rcases hd with h1 | h1 | h1 | h1 <;> subst h1 <;> exact absurd h (by decide)

/-- `[^\s@]` characters are not whitespace. -/
theorem atomChar_not_ws (c : Char) (h : atomChar c = true) :
    c.isWhitespace = false := by
  simp only [atomChar, Bool.and_eq_true, Bool.not_eq_eq_eq_not, Bool.not_true] at h
  exact h.1

/-- The username rule passes exactly on raw values of length at least three
all of whose characters lie in `[A-Za-z0-9_]` (the regex runs on the raw,
untrimmed value, so a value with surrounding whitespace never passes). -/
theorem username_pass_iff (v : List Char) :
    validators.username v = "" ↔ 3 ≤ v.length ∧ v.all isWordChar = true := by
  constructor
  · intro h
    unfold validators.username at h
    split at h
    · simp at h
    · split at h
      · simp at h
      · split at h
        · simp at h
        · rename_i h1 h2 h3
          have hreg : usernameRegexTest v = true := by
            cases hb : usernameRegexTest v with
            | true => rfl
            | false => exact absurd (by rw [hb]; rfl) h3
          have hall : v.all isWordChar = true := by
            have h' := hreg
            simp only [usernameRegexTest, Bool.and_eq_true] at h'
            exact h'.2
          have htrim : jsTrim v = v :=
            jsTrim_eq_self v fun c hc =>
              isWordChar_not_ws c (List.all_eq_true.mp hall c hc)
          rw [htrim] at h2
          exact ⟨Nat.le_of_not_lt h2, hall⟩
  · intro hh
    obtain ⟨h3, hall⟩ := hh
    have hne : v ≠ [] := by
      intro e; rw [e] at h3; simp at h3
    have htrim : jsTrim v = v :=
      jsTrim_eq_self v fun c hc =>
        isWordChar_not_ws c (List.all_eq_true.mp hall c hc)
    unfold validators.username
    rw [htrim]
    rw [if_neg (by simp [List.isEmpty_iff, hne]),
        if_neg (by omega),
        if_neg (by simp [usernameRegexTest, List.isEmpty_iff, hne, hall])]

/-- C2 (counterexample): for the input consisting of a space followed by
`abc`, the trimmed value has length 3 and consists only of `[A-Za-z0-9_]`
characters, so the claim says the username validator passes; but the source
tests its regex against the raw value, which contains the space, so the
validator fails. -/
theorem c2_username_counterexample :
    (jsTrim [' ', 'a', 'b', 'c']).length = 3 ∧
    (jsTrim [' ', 'a', 'b', 'c']).all isWordChar = true ∧
    validators.username [' ', 'a', 'b', 'c'] ≠ "" := by decide

/-- C2 (amended): the username validator passes if and only if the raw,
untrimmed input has length at least 3 and every character of the raw input
is in `[A-Za-z0-9_]`; in particular it fails when the value is empty after
trimming, when the trimmed length is less than 3, and when any character of
the raw value (surrounding whitespace included) lies outside the class. -/
theorem c2_username_amended (v : List Char) :
    validators.username v = "" ↔ 3 ≤ v.length ∧ v.all isWordChar = true :=
  username_pass_iff v

/-- The confirm-password rule passes exactly on nonempty values equal to the
live password-field value. -/
theorem confirm_pass_iff (d : Option (List Char)) (v : List Char) :
    validators.confirmPassword d v = "" ↔ v ≠ [] ∧ d = some v := by
  unfold validators.confirmPassword
  constructor
  · intro h
    split at h
    · simp at h
    · split at h
      · simp at h
      · rename_i h1 h2
        refine ⟨by simpa [List.isEmpty_iff] using h1, ?_⟩
        by_contra hc
        exact h2 hc
  · intro hh
    obtain ⟨hne, hd⟩ := hh
    rw [if_neg (by simp [List.isEmpty_iff, hne]), if_neg (by simp [hd])]

/-- C5: the confirmPassword validator passes iff the input is nonempty and
equal to the live value of the password field at the moment of validation;
after the password field changes to a value different from the unchanged
confirm value, re-validation fails. -/
theorem c5_confirm_password_live (v p p' : List Char) :
    (validators.confirmPassword (some p) v = "" ↔ v ≠ [] ∧ v = p) ∧
    (validators.confirmPassword (some p) v = "" → v ≠ p' →
      validators.confirmPassword (some p') v ≠ "") := by
  constructor
  · rw [confirm_pass_iff]
    constructor
    · intro hh; exact ⟨hh.1, by simpa using hh.2.symm⟩
    · intro hh; exact ⟨hh.1, by simp [hh.2]⟩
  · intro hpass hne hc
    have h2 := (confirm_pass_iff (some p') v).mp hc
    exact hne (by simpa using h2.2.symm)

/-- C5 witness: `"abcdef"` confirms against password `"abcdef"`, and after
the password field changes to `"z"` the same confirm value fails. -/
theorem c5_confirm_password_live_witness :
    validators.confirmPassword (some ['a','b','c','d','e','f']) ['a','b','c','d','e','f'] = "" ∧
    validators.confirmPassword (some ['z']) ['a','b','c','d','e','f'] ≠ "" := by
  refine ⟨(c5_confirm_password_live ['a','b','c','d','e','f'] ['a','b','c','d','e','f'] ['z']).1.mpr ⟨by decide, rfl⟩, ?_⟩
  exact (c5_confirm_password_live ['a','b','c','d','e','f'] ['a','b','c','d','e','f'] ['z']).2
    ((c5_confirm_password_live ['a','b','c','d','e','f'] ['a','b','c','d','e','f'] ['z']).1.mpr ⟨by decide, rfl⟩)
    (by decide)

/-- C9: field validation is deterministic and has no hidden state: running
`validateField` a second time with the same input and document state, from
the UI state produced by the first run, returns the same verdict and leaves
the UI exactly as after the first run. -/
theorem c9_validator_idempotent (docPw : Option (List Char)) (ui : String → FieldMark)
    (id : String) (k : VKey) (v : List Char) :
    (validateField docPw (validateField docPw ui id k v).2 id k v).1 =
      (validateField docPw ui id k v).1 ∧
    (validateField docPw (validateField docPw ui id k v).2 id k v).2 =
      (validateField docPw ui id k v).2 := by
  refine ⟨rfl, ?_⟩
  funext i
  unfold validateField setMark
  by_cases h : i = id <;> simp [h]

/-- C3: with the fixed 2000 ms cooldown, `canProceed` accepts exactly when
at least 2000 ms have elapsed since the last recorded call, recording the
current time on acceptance; a later call strictly within 2000 ms of an
acceptance is rejected while `getRemainingTime` is positive and at most
2000, a call at least 2000 ms later is accepted again, and
`getRemainingTime` always equals `max 0 (cooldown - elapsed)`. -/
theorem c3_rate_limiter (s : RL) (now t : Int) (hmono : now ≤ t) :
    ((canProceed 2000 now s).1 = true ↔ 2000 ≤ now - s.lastCall) ∧
    ((canProceed 2000 now s).1 = true → (canProceed 2000 now s).2.lastCall = now) ∧
    getRemainingTime 2000 now s = max 0 (2000 - (now - s.lastCall)) ∧
    ((canProceed 2000 now s).1 = true →
      (t - now < 2000 →
        (canProceed 2000 t (canProceed 2000 now s).2).1 = false ∧
        0 < getRemainingTime 2000 t (canProceed 2000 now s).2 ∧
        getRemainingTime 2000 t (canProceed 2000 now s).2 ≤ 2000) ∧
      (2000 ≤ t - now →
        (canProceed 2000 t (canProceed 2000 now s).2).1 = true)) := by
  by_cases h1 : (2000 : Int) ≤ now - s.lastCall
  · refine ⟨by simp [canProceed, h1], by simp [canProceed, h1], by simp [getRemainingTime], ?_⟩
    intro _
    constructor
    · intro hlt
      have h2 : ¬((2000 : Int) ≤ t - now) := by omega
      refine ⟨by simp [canProceed, h1, h2], ?_, ?_⟩
      · simp [canProceed, getRemainingTime, h1]
        omega
      · simp [canProceed, getRemainingTime, h1]
        omega
    · intro hge
      simp [canProceed, h1, hge]
  · refine ⟨by simp [canProceed, h1], by simp [canProceed, h1], by simp [getRemainingTime], ?_⟩
    intro habs
    rw [show canProceed 2000 now s = (false, { lastCall := s.lastCall, isLimited := true }) from by
      simp [canProceed, h1]] at habs
    simp at habs

/-- C3 witness: starting from the fresh limiter, a call at time 10000 is
accepted, a second call 500 ms later is rejected with a positive remaining
time of at most 2000 ms. -/
theorem c3_rate_limiter_witness :
    (canProceed 2000 10500 (canProceed 2000 10000 initRL).2).1 = false ∧
    0 < getRemainingTime 2000 10500 (canProceed 2000 10000 initRL).2 ∧
    getRemainingTime 2000 10500 (canProceed 2000 10000 initRL).2 ≤ 2000 :=
  ((c3_rate_limiter initRL 10000 10500 (by decide)).2.2.2 (by decide)).1 (by decide)

/-- C4 (counterexample): after an accepted call at time 1000000, a rejected
call at time 1000100 leaves `lastCall` alone but flips `isLimited` from
`false` to `true`, so the limiter's entire state is not left unchanged. -/
theorem c4_reject_counterexample :
    canProceed 2000 1000000 initRL = (true, { lastCall := 1000000, isLimited := false }) ∧
    (canProceed 2000 1000100 { lastCall := 1000000, isLimited := false }).1 = false ∧
    (canProceed 2000 1000100 { lastCall := 1000000, isLimited := false }).2 ≠
      { lastCall := 1000000, isLimited := false } := by decide

/-- C4 (amended): a rejected `canProceed` call leaves `lastCall` unchanged —
it neither resets nor extends the cooldown, and every `getRemainingTime`
query is unaffected — but it does set the `isLimited` flag to `true`. -/
theorem c4_reject_frame (intervalMs now : Int) (s : RL)
    (h : (canProceed intervalMs now s).1 = false) :
    (canProceed intervalMs now s).2.lastCall = s.lastCall ∧
    (canProceed intervalMs now s).2.isLimited = true ∧
    ∀ t, getRemainingTime intervalMs t (canProceed intervalMs now s).2 =
      getRemainingTime intervalMs t s := by
  by_cases hc : intervalMs ≤ now - s.lastCall
  · simp [canProceed, hc] at h
  · refine ⟨by simp [canProceed, hc], by simp [canProceed, hc], fun t => ?_⟩
    simp [canProceed, getRemainingTime, hc]

/-- C4 witness: the rejected call at time 1000100 keeps `lastCall` at
1000000 and does not change the remaining time observed at time 1000500. -/
theorem c4_reject_frame_witness :
    (canProceed 2000 1000100 { lastCall := 1000000, isLimited := false }).2.lastCall = 1000000 ∧
    getRemainingTime 2000 1000500
      (canProceed 2000 1000100 { lastCall := 1000000, isLimited := false }).2 =
      getRemainingTime 2000 1000500 { lastCall := 1000000, isLimited := false } :=
  ⟨(c4_reject_frame 2000 1000100 { lastCall := 1000000, isLimited := false } (by decide)).1,
   (c4_reject_frame 2000 1000100 { lastCall := 1000000, isLimited := false } (by decide)).2.2 1000500⟩

/-- The validity flag of the `validateForm` loop: starting from `b`, the
loop conjoins the verdict of every field that resolves in the form. -/
theorem vf_fst (docPw : Option (List Char)) (form : List (String × List Char))
    (fields : List (String × VKey)) : ∀ (b : Bool) (ui : String → FieldMark),
    (fields.foldl (vfStep docPw form) (b, ui)).1 =
      (b && fields.all fun f =>
        match List.lookup f.1 form with
        | some v => (fieldResult docPw f.2 v).1
        | none => true) := by
  induction fields with
  | nil => intro b ui; simp
  | cons f tl ih =>
      intro b ui
      rw [List.foldl_cons, List.all_cons]
      cases hl : List.lookup f.1 form with
      | some v =>
          rw [show vfStep docPw form (b, ui) f =
              (b && (fieldResult docPw f.2 v).1, setMark ui f.1 (fieldResult docPw f.2 v).2) from by
            unfold vfStep; rw [hl]]
          rw [ih]
          simp [hl, Bool.and_assoc]
      | none =>
          rw [show vfStep docPw form (b, ui) f = (b, ui) from by unfold vfStep; rw [hl]]
          rw [ih]
          simp [hl]

/-- A field id not named by any spec keeps its UI mark across the loop. -/
theorem vf_not_mem (docPw : Option (List Char)) (form : List (String × List Char))
    (fields : List (String × VKey)) : ∀ (b : Bool) (ui : String → FieldMark) (id : String),
    id ∉ fields.map Prod.fst →
    (fields.foldl (vfStep docPw form) (b, ui)).2 id = ui id := by
  induction fields with
  | nil => intro b ui id _; rfl
  | cons f tl ih =>
      intro b ui id hid
      rw [List.map_cons] at hid
      have h1 : id ≠ f.1 := fun e => hid (by rw [e]; exact List.mem_cons_self _ _)
      have h2 : id ∉ tl.map Prod.fst := fun m => hid (List.mem_cons_of_mem _ m)
      rw [List.foldl_cons]
      cases hl : List.lookup f.1 form with
      | some v =>
          rw [show vfStep docPw form (b, ui) f =
              (b && (fieldResult docPw f.2 v).1, setMark ui f.1 (fieldResult docPw f.2 v).2) from by
            unfold vfStep; rw [hl]]
          rw [ih _ _ _ h2]
          simp [setMark, h1]
      | none =>
          rw [show vfStep docPw form (b, ui) f = (b, ui) from by unfold vfStep; rw [hl]]
          exact ih _ _ _ h2

/-- With distinct field ids, the loop writes exactly the mark computed by
the field's own validator to that field's input group, whether or not other
fields failed: no short-circuit. -/
theorem vf_mem (docPw : Option (List Char)) (form : List (String × List Char))
    (fields : List (String × VKey)) :
    ∀ (b : Bool) (ui : String → FieldMark) (id : String) (k : VKey) (v : List Char),
    (fields.map Prod.fst).Nodup → (id, k) ∈ fields → List.lookup id form = some v →
    (fields.foldl (vfStep docPw form) (b, ui)).2 id = (fieldResult docPw k v).2 := by
  induction fields with
  | nil => intro b ui id k v _ hm _; exact absurd hm (List.not_mem_nil _)
  | cons f tl ih =>
      intro b ui id k v hnd hm hv
      rw [List.map_cons, List.nodup_cons] at hnd
      rw [List.foldl_cons]
      rcases List.mem_cons.mp hm with he | ht
      · subst he
        rw [show vfStep docPw form (b, ui) (id, k) =
            (b && (fieldResult docPw k v).1, setMark ui id (fieldResult docPw k v).2) from by
          unfold vfStep; rw [hv]]
        rw [vf_not_mem docPw form tl _ _ _ hnd.1]
        simp [setMark]
      · cases hl : List.lookup f.1 form with
        | some w =>
            rw [show vfStep docPw form (b, ui) f =
                (b && (fieldResult docPw f.2 w).1, setMark ui f.1 (fieldResult docPw f.2 w).2) from by
              unfold vfStep; rw [hl]]
            exact ih _ _ _ _ _ hnd.2 ht hv
        | none =>
            rw [show vfStep docPw form (b, ui) f = (b, ui) from by unfold vfStep; rw [hl]]
            exact ih _ _ _ _ _ hnd.2 ht hv

/-- A validating field with a nonempty trimmed value is marked success. -/
theorem fieldResult_success (docPw : Option (List Char)) (k : VKey) (v : List Char)
    (hp : (fieldResult docPw k v).1 = true) (hne : (jsTrim v).isEmpty = false) :
    (fieldResult docPw k v).2 = FieldMark.success := by
  by_cases hc : runValidator docPw k v = ""
  · simp [fieldResult, hc, hne]
  · exfalso
    have hf : (fieldResult docPw k v).1 = false := by simp [fieldResult, hc]
    rw [hp] at hf
    exact absurd hf (by decide)

/-- C1: over a form in which every listed field resolves (with distinct
field ids, as in both call sites), `validateForm` returns true exactly when
every listed field's validator passes, it evaluates and marks every field
regardless of earlier failures (no short-circuit: each field's final UI
mark is the one computed by its own validator), and every field whose value
is nonempty after trimming and whose validator passes ends marked success. -/
theorem c1_form_gate (docPw : Option (List Char)) (form : List (String × List Char))
    (fields : List (String × VKey)) (ui : String → FieldMark)
    (hres : ∀ f ∈ fields, (List.lookup f.1 form).isSome)
    (hnd : (fields.map Prod.fst).Nodup) :
    ((validateForm docPw form fields ui).1 = true ↔
      ∀ f ∈ fields, ∃ v, List.lookup f.1 form = some v ∧ (fieldResult docPw f.2 v).1 = true) ∧
    (∀ f ∈ fields, ∀ v, List.lookup f.1 form = some v →
      (validateForm docPw form fields ui).2 f.1 = (fieldResult docPw f.2 v).2) ∧
    (∀ f ∈ fields, ∀ v, List.lookup f.1 form = some v →
      (fieldResult docPw f.2 v).1 = true → (jsTrim v).isEmpty = false →
      (validateForm docPw form fields ui).2 f.1 = FieldMark.success) := by
  have hmark : ∀ f ∈ fields, ∀ v, List.lookup f.1 form = some v →
      (validateForm docPw form fields ui).2 f.1 = (fieldResult docPw f.2 v).2 := by
    intro f hf v hv
    unfold validateForm
    exact vf_mem docPw form fields true ui f.1 f.2 v hnd
      (by rw [Prod.mk.eta]; exact hf) hv
  refine ⟨?_, hmark, ?_⟩
  · unfold validateForm
    rw [vf_fst]
    simp only [Bool.true_and]
    rw [List.all_eq_true]
    constructor
    · intro hall f hf
      obtain ⟨v, hv⟩ := Option.isSome_iff_exists.mp (hres f hf)
      refine ⟨v, hv, ?_⟩
      have := hall f hf
      rw [hv] at this
      exact this
    · intro h f hf
      obtain ⟨v, hv, hp⟩ := h f hf
      rw [hv]
      exact hp
  · intro f hf v hv hp hne
    rw [hmark f hf v hv]
    exact fieldResult_success docPw f.2 v hp hne

/-- C1 witness: the sign-in form with email `a@b.co` and password
`secret1` validates and the email field is marked success. -/
theorem c1_form_gate_witness :
    (validateForm none
      [("signInEmail", ['a','@','b','.','c','o']),
       ("signInPassword", ['s','e','c','r','e','t','1'])] signInFields uiInit).2 "signInEmail" =
      FieldMark.success :=
  (c1_form_gate none
    [("signInEmail", ['a','@','b','.','c','o']),
     ("signInPassword", ['s','e','c','r','e','t','1'])] signInFields uiInit
    (by decide) (by decide)).2.2
    ("signInEmail", VKey.email) (by decide) ['a','@','b','.','c','o'] (by decide) (by decide)
    (by decide)

/-- C10: a field spec whose id does not resolve to an input inside the form
is silently skipped by `validateForm` — the loop step leaves both the
validity flag and the UI untouched, so the whole run is identical to the
run without that spec, and the skipped field can neither be validated nor
make the form invalid. -/
theorem c10_missing_field_skipped (docPw : Option (List Char))
    (form : List (String × List Char)) (fields1 fields2 : List (String × VKey))
    (id : String) (k : VKey) (ui : String → FieldMark)
    (h : List.lookup id form = none) :
    validateForm docPw form (fields1 ++ (id, k) :: fields2) ui =
      validateForm docPw form (fields1 ++ fields2) ui := by
  unfold validateForm
  rw [List.foldl_append, List.foldl_append, List.foldl_cons]
  congr 1
  unfold vfStep
  rw [h]

/-- C10 witness: with a spec naming the unresolvable id `ghost` prepended,
`validateForm` still returns true on the valid sign-in form — the listed
`ghost` field was never validated. -/
theorem c10_missing_field_skipped_witness :
    (validateForm none
      [("signInEmail", ['a','@','b','.','c','o']),
       ("signInPassword", ['s','e','c','r','e','t','1'])]
      ([] ++ ("ghost", VKey.email) :: signInFields) uiInit).1 = true := by
  rw [c10_missing_field_skipped none
    [("signInEmail", ['a','@','b','.','c','o']),
     ("signInPassword", ['s','e','c','r','e','t','1'])]
    [] signInFields "ghost" VKey.email uiInit (by decide)]
  decide

/-- Characterization of `tailCheck`: a dot followed by a nonempty atom run,
with a nonempty atom run already consumed. -/
theorem tailCheck_iff (y l : List Char) :
    tailCheck y l = true ↔
      ∃ z, l = '.' :: z ∧ y ≠ [] ∧ y.all atomChar = true ∧ z ≠ [] ∧ z.all atomChar = true := by
  cases l with
  | nil => simp [tailCheck]
  | cons c z =>
      unfold tailCheck
      simp only [Bool.and_eq_true, beq_iff_eq, Bool.not_eq_true', and_assoc]
      constructor
      · rintro ⟨hc, hy, hay, hz, haz⟩
        subst hc
        exact ⟨z, rfl, by simpa using hy, hay, by simpa using hz, haz⟩
      · rintro ⟨z', he, hy, hay, hz, haz⟩
        injection he with h1 h2
        subst h1
        subst h2
        exact ⟨rfl, by simpa using hy, hay, by simpa using hz, haz⟩

/-- Characterization of `tailTest`: some split of `rest` matches
`[^\s@]+\.[^\s@]+`, i.e. `rest` decomposes as `y ++ "." ++ z`. -/
theorem tailTest_iff (rest : List Char) :
    tailTest rest = true ↔
      ∃ y z, rest = y ++ '.' :: z ∧ y ≠ [] ∧ y.all atomChar = true ∧
        z ≠ [] ∧ z.all atomChar = true := by
  unfold tailTest
  rw [List.any_eq_true]
  constructor
  · rintro ⟨j, _, hc⟩
    rw [tailCheck_iff] at hc
    obtain ⟨z, hdrop, hy, hay, hz, haz⟩ := hc
    refine ⟨rest.take j, z, ?_, hy, hay, hz, haz⟩
    conv_lhs => rw [← List.take_append_drop j rest]
    rw [hdrop]
  · rintro ⟨y, z, he, hy, hay, hz, haz⟩
    refine ⟨y.length, ?_, ?_⟩
    · rw [List.mem_range, he, List.length_append]
      simp only [List.length_cons]
      omega
    · rw [tailCheck_iff]
      have htake : rest.take y.length = y := by rw [he]; exact List.take_left y _
      have hdrop : rest.drop y.length = '.' :: z := by rw [he]; exact List.drop_left y _
      rw [htake, hdrop]
      exact ⟨z, rfl, hy, hay, hz, haz⟩

/-- Characterization of `headCheck`: an `@` followed by a tail match, with a
nonempty atom run already consumed. -/
theorem headCheck_iff (x l : List Char) :
    headCheck x l = true ↔
      ∃ rest, l = '@' :: rest ∧ x ≠ [] ∧ x.all atomChar = true ∧ tailTest rest = true := by
  cases l with
  | nil => simp [headCheck]
  | cons c rest =>
      unfold headCheck
      simp only [Bool.and_eq_true, beq_iff_eq, Bool.not_eq_true', and_assoc]
      constructor
      · rintro ⟨hc, hx, hax, ht⟩
        subst hc
        exact ⟨rest, rfl, by simpa using hx, hax, ht⟩
      · rintro ⟨rest', he, hx, hax, ht⟩
        injection he with h1 h2
        subst h1
        subst h2
        exact ⟨rfl, by simpa using hx, hax, ht⟩

/-- The email regex test accepts exactly the strings of the shape the spec
describes: `[^\s@]+ @ [^\s@]+ . [^\s@]+`. -/
theorem emailRegexTest_iff (cs : List Char) :
    emailRegexTest cs = true ↔ EmailShapeSpec cs := by
  unfold emailRegexTest EmailShapeSpec
  rw [List.any_eq_true]
  constructor
  · rintro ⟨i, _, hc⟩
    rw [headCheck_iff] at hc
    obtain ⟨rest, hdrop, hx, hax, ht⟩ := hc
    rw [tailTest_iff] at ht
    obtain ⟨y, z, hre, hy, hay, hz, haz⟩ := ht
    refine ⟨cs.take i, y, z, ?_, hx, hax, hy, hay, hz, haz⟩
    conv_lhs => rw [← List.take_append_drop i cs]
    rw [hdrop, hre]
  · rintro ⟨x, y, z, he, hx, hax, hy, hay, hz, haz⟩
    refine ⟨x.length, ?_, ?_⟩
    · rw [List.mem_range, he, List.length_append]
      simp only [List.length_cons, List.length_append]
      omega
    · rw [headCheck_iff]
      have htake : cs.take x.length = x := by rw [he]; exact List.take_left x _
      have hdrop : cs.drop x.length = '@' :: (y ++ '.' :: z) := by
        rw [he]; exact List.drop_left x _
      rw [htake, hdrop]
      refine ⟨y ++ '.' :: z, rfl, hx, hax, ?_⟩
      rw [tailTest_iff]
      exact ⟨y, z, rfl, hy, hay, hz, haz⟩

/-- No character of an email-shaped string is whitespace. -/
theorem emailShape_not_ws (cs : List Char) (h : EmailShapeSpec cs) :
    ∀ c ∈ cs, c.isWhitespace = false := by
  obtain ⟨x, y, z, he, _, hax, _, hay, _, haz⟩ := h
  intro c hc
  rw [he] at hc
  simp only [List.mem_append, List.mem_cons] at hc
  rcases hc with hc | hc | hc | hc | hc
  · exact atomChar_not_ws c (List.all_eq_true.mp hax c hc)
  · subst hc; decide
  · exact atomChar_not_ws c (List.all_eq_true.mp hay c hc)
  · subst hc; decide
  · exact atomChar_not_ws c (List.all_eq_true.mp haz c hc)

/-- C6: the email validator passes exactly on strings of the shape
`[^\s@]+ @ [^\s@]+ . [^\s@]+` — so it fails on the empty input and on every
input not of that shape; in particular it rejects `a@b` (no dot) and
`ab.com` (no at sign) and accepts `a@b.co`. -/
theorem c6_email_validator (v : List Char) :
    (validators.email v = "" ↔ EmailShapeSpec v) ∧
    validators.email [] ≠ "" ∧
    validators.email ['a','@','b'] ≠ "" ∧
    validators.email ['a','b','.','c','o','m'] ≠ "" ∧
    validators.email ['a','@','b','.','c','o'] = "" := by
  refine ⟨?_, by decide, by decide, by decide, by decide⟩
  constructor
  · intro h
    unfold validators.email at h
    split at h
    · simp at h
    · split at h
      · simp at h
      · rename_i h1 h2
        have hreg : emailRegexTest v = true := by
          cases hb : emailRegexTest v with
          | true => rfl
          | false => exact absurd (by rw [hb]; rfl) h2
        exact (emailRegexTest_iff v).mp hreg
  · intro hs
    have hnws := emailShape_not_ws v hs
    have htrim : jsTrim v = v := jsTrim_eq_self v hnws
    have hne : v ≠ [] := by
      obtain ⟨x, y, z, he, hx, _⟩ := hs
      rw [he]
      simp
    unfold validators.email
    rw [htrim]
    rw [if_neg (by simp [List.isEmpty_iff, hne]),
        if_neg (by simp [(emailRegexTest_iff v).mpr hs])]

/-- Each byte contributes two hex characters. -/
theorem hexOf_length (bytes : List Nat) : (hexOf bytes).length = 2 * bytes.length := by
  induction bytes with
  | nil => rfl
  | cons b tl ih =>
      simp only [hexOf, List.map_cons, List.flatten_cons, List.length_append,
        List.length_cons] at *
      simp [byteToHex, ih]
      omega

/-- Hex digits of values below 16 are lowercase hex characters. -/
theorem hexDigit_isHex (n : Nat) (h : n < 16) : isHexChar (hexDigit n) = true := by
  have hall : ∀ m, m < 16 → isHexChar (hexDigit m) = true := by decide
  exact hall n h

/-- The hex encoding of a byte list consists of hex characters only. -/
theorem hexOf_all_hex (bytes : List Nat) (h : ∀ b ∈ bytes, b < 256) :
    (hexOf bytes).all isHexChar = true := by
  induction bytes with
  | nil => rfl
  | cons b tl ih =>
      have hb : b < 256 := h b (by simp)
      simp only [hexOf, List.map_cons, List.flatten_cons, List.all_append]
      rw [show (byteToHex b).all isHexChar = true from by
        simp only [byteToHex, List.all_cons, List.all_nil, Bool.and_true]
        rw [hexDigit_isHex (b / 16) (by omega), hexDigit_isHex (b % 16) (by omega)]
        rfl]
      rw [show (List.map byteToHex tl).flatten.all isHexChar = true from
        ih fun x hx => h x (by simp [hx])]
      rfl

/-- C8: `getToken` returns the stored token and generates one only on first
use; every generated token is the 64-character lowercase-hex encoding of
the 32 random bytes; `refreshToken` regenerates unconditionally; and a
submission that passes both the rate limit and validation sends the form
data with the current token appended under `_csrf` before the simulated
submission (the `attachCsrf` step precedes `busyEnter` and `waitDelay` in
the trace) and refreshes the token afterwards (`tokenRefresh` follows
`busyExit`), on both forms. -/
theorem c8_csrf_tokens (bytes : List Nat) (s : CsrfState) (t : List Char)
    (hlen : bytes.length = 32) (hbyte : ∀ b ∈ bytes, b < 256) :
    (s.token = some t → getToken bytes s = (t, s)) ∧
    (s.token = none → getToken bytes s = (hexOf bytes, { token := some (hexOf bytes) })) ∧
    ((generateToken bytes s).1.length = 64 ∧ (generateToken bytes s).1.all isHexChar = true) ∧
    (∀ s', refreshToken bytes s' = (hexOf bytes, { token := some (hexOf bytes) })) ∧
    (∀ now rl docPw form ui csrf genBytes refreshBytes,
      (canProceed 2000 now rl).1 = true →
      (validateForm docPw form signInFields ui).1 = true →
      (signInHandler now rl docPw form ui csrf genBytes refreshBytes).formData =
        some (form ++ [("_csrf", (getToken genBytes csrf).1)]) ∧
      (signInHandler now rl docPw form ui csrf genBytes refreshBytes).csrf =
        { token := some (hexOf refreshBytes) } ∧
      ((signInHandler now rl docPw form ui csrf genBytes refreshBytes).trace.indexOf
          Step.attachCsrf <
        (signInHandler now rl docPw form ui csrf genBytes refreshBytes).trace.indexOf
          Step.waitDelay ∧
       (signInHandler now rl docPw form ui csrf genBytes refreshBytes).trace.indexOf
          Step.busyExit <
        (signInHandler now rl docPw form ui csrf genBytes refreshBytes).trace.indexOf
          Step.tokenRefresh)) ∧
    (∀ now rl docPw form ui csrf genBytes refreshBytes,
      (canProceed 2000 now rl).1 = true →
      (validateForm docPw form signUpFields ui).1 = true →
      (signUpHandler now rl docPw form ui csrf genBytes refreshBytes).formData =
        some (form ++ [("_csrf", (getToken genBytes csrf).1)]) ∧
      (signUpHandler now rl docPw form ui csrf genBytes refreshBytes).csrf =
        { token := some (hexOf refreshBytes) }) := by
  refine ⟨?_, ?_, ?_, ?_, ?_, ?_⟩
  · intro h
    unfold getToken
    rw [h]
  · intro h
    unfold getToken
    rw [h]
    rfl
  · constructor
    · rw [show (generateToken bytes s).1 = hexOf bytes from rfl, hexOf_length, hlen]
    · rw [show (generateToken bytes s).1 = hexOf bytes from rfl]
      exact hexOf_all_hex bytes hbyte
  · intro s'
    rfl
  · intro now rl docPw form ui csrf genBytes refreshBytes hrl hval
    unfold signInHandler
    rw [hrl, hval]
    simp only [if_pos]
    refine ⟨rfl, rfl, by decide, by decide⟩
  · intro now rl docPw form ui csrf genBytes refreshBytes hrl hval
    unfold signUpHandler
    rw [hrl, hval]
    simp only [if_pos]
    exact ⟨rfl, rfl⟩

/-- C8 witness: generating with the concrete byte list `0..31` yields a
64-character all-hex token, and a passing sign-in submission at time 10000
from the fresh page state attaches that token and ends with a refreshed
token. -/
theorem c8_csrf_tokens_witness :
    (generateToken (List.range 32) { token := none }).1.length = 64 ∧
    (generateToken (List.range 32) { token := none }).1.all isHexChar = true ∧
    (signInHandler 10000 initRL none
      [("signInEmail", ['a','@','b','.','c','o']),
       ("signInPassword", ['s','e','c','r','e','t','1'])] uiInit
      { token := none } (List.range 32) (List.range 32)).formData =
      some ([("signInEmail", ['a','@','b','.','c','o']),
             ("signInPassword", ['s','e','c','r','e','t','1'])] ++
            [("_csrf", (getToken (List.range 32) { token := none }).1)]) := by
  have h := c8_csrf_tokens (List.range 32) { token := none } [] (by decide) (by decide)
  refine ⟨h.2.2.1.1, h.2.2.1.2, ?_⟩
  exact (h.2.2.2.2.1 10000 initRL none
    [("signInEmail", ['a','@','b','.','c','o']),
     ("signInPassword", ['s','e','c','r','e','t','1'])] uiInit
    { token := none } (List.range 32) (List.range 32) (by decide) (by decide)).1

/-- C7: within one form's submit handler the steps run strictly in sequence
and each runs only if all earlier steps completed without an early return:
a rate-limit rejection yields only the rate check and an error toast; a
validation failure yields only the rate check, the validation and an error
toast; otherwise the full sequence runs — rate check, validation, CSRF
attachment, busy entry, timed wait, busy exit, token refresh and the final
notification (with the remember-me update before the sign-in toast and the
panel switch after the sign-up toast), for both forms. -/
theorem c7_submit_sequence (now : Int) (rl : RL) (docPw : Option (List Char))
    (form : List (String × List Char)) (ui : String → FieldMark) (csrf : CsrfState)
    (genBytes refreshBytes : List Nat) :
    ((canProceed 2000 now rl).1 = false →
      (signInHandler now rl docPw form ui csrf genBytes refreshBytes).trace =
        [Step.rateCheck, Step.notifyError] ∧
      (signUpHandler now rl docPw form ui csrf genBytes refreshBytes).trace =
        [Step.rateCheck, Step.notifyError]) ∧
    ((canProceed 2000 now rl).1 = true →
      ((validateForm docPw form signInFields ui).1 = false →
        (signInHandler now rl docPw form ui csrf genBytes refreshBytes).trace =
          [Step.rateCheck, Step.validation, Step.notifyError]) ∧
      ((validateForm docPw form signInFields ui).1 = true →
        (signInHandler now rl docPw form ui csrf genBytes refreshBytes).trace =
          [Step.rateCheck, Step.validation, Step.attachCsrf, Step.busyEnter,
           Step.waitDelay, Step.busyExit, Step.tokenRefresh,
           Step.rememberMeUpdate, Step.notifySuccess]) ∧
      ((validateForm docPw form signUpFields ui).1 = false →
        (signUpHandler now rl docPw form ui csrf genBytes refreshBytes).trace =
          [Step.rateCheck, Step.validation, Step.notifyError]) ∧
      ((validateForm docPw form signUpFields ui).1 = true →
        (signUpHandler now rl docPw form ui csrf genBytes refreshBytes).trace =
          [Step.rateCheck, Step.validation, Step.attachCsrf, Step.busyEnter,
           Step.waitDelay, Step.busyExit, Step.tokenRefresh,
           Step.notifySuccess, Step.panelSwitch])) := by
  constructor
  · intro hrl
    unfold signInHandler signUpHandler
    rw [hrl]
    exact ⟨rfl, rfl⟩
  · intro hrl
    refine ⟨?_, ?_, ?_, ?_⟩
    · intro hval
      unfold signInHandler
      rw [hrl, hval]
      rfl
    · intro hval
      unfold signInHandler
      rw [hrl, hval]
      rfl
    · intro hval
      unfold signUpHandler
      rw [hrl, hval]
      rfl
    · intro hval
      unfold signUpHandler
      rw [hrl, hval]
      rfl

/-- C7 witness: at time 100 from the fresh limiter the rate check rejects
(only 100 ms since the epoch baseline), and the sign-in trace stops after
the rate check and the error toast; at time 10000 with valid sign-in data
the full sequence runs. -/
theorem c7_submit_sequence_witness :
    (signInHandler 100 initRL none [] uiInit { token := none } [] []).trace =
      [Step.rateCheck, Step.notifyError] ∧
    (signInHandler 10000 initRL none
      [("signInEmail", ['a','@','b','.','c','o']),
       ("signInPassword", ['s','e','c','r','e','t','1'])] uiInit
      { token := none } [] []).trace =
      [Step.rateCheck, Step.validation, Step.attachCsrf, Step.busyEnter,
       Step.waitDelay, Step.busyExit, Step.tokenRefresh,
       Step.rememberMeUpdate, Step.notifySuccess] :=
  ⟨((c7_submit_sequence 100 initRL none [] uiInit { token := none } [] []).1
      (by decide)).1,
   ((c7_submit_sequence 10000 initRL none
      [("signInEmail", ['a','@','b','.','c','o']),
       ("signInPassword", ['s','e','c','r','e','t','1'])] uiInit
      { token := none } [] []).2 (by decide)).2.1 (by decide)⟩

/-- C2 witness: the all-word-character value `abc` of length 3 passes. -/
theorem c2_username_amended_witness :
    validators.username ['a', 'b', 'c'] = "" :=
  (c2_username_amended ['a', 'b', 'c']).mpr (by decide)

/-- C6 witness: `a@b.co` is accepted by the email validator. -/
theorem c6_email_validator_witness :
    validators.email ['a', '@', 'b', '.', 'c', 'o'] = "" :=
  (c6_email_validator ['a', '@', 'b', '.', 'c', 'o']).2.2.2.2
